import Mathlib

/-!
Verification of the HubSpot form-recovery service (src/app.py and
src/main.py).  Python dicts are modelled as insertion-ordered association
lists, JSON string-or-null values as `Option String`, and HTTP traffic as
explicit response oracles passed to the functions that perform requests.
-/

/-- Python `str.strip()`: drop leading and trailing whitespace. -/
def pyStrip (s : String) : String :=
  ⟨(((s.data.dropWhile Char.isWhitespace).reverse.dropWhile
      Char.isWhitespace).reverse)⟩

/-- Python `str.lower()` (ASCII case folding suffices for the data here). -/
def pyLower (s : String) : String :=
  ⟨s.data.map Char.toLower⟩

/-- Decimal digit value of a character, if it is a digit. -/
def digitValue (c : Char) : Option Nat :=
  if c.isDigit then some (c.toNat - 48) else none

/-- Parse a non-empty all-digit character list as a natural number. -/
def parseNatDigits (cs : List Char) : Option Nat :=
  if cs = [] then none
  else
    cs.foldl (fun acc c =>
      match acc, digitValue c with
      | some a, some d => some (a * 10 + d)
      | _, _ => none) (some 0)

/-- Python dict assignment `d[k] = v` on an insertion-ordered association
list: overwrite the value in place when the key exists, else append. -/
def dictInsert {α : Type} (l : List (String × α)) (k : String) (v : α) :
    List (String × α) :=
  if l.any (fun p => p.1 == k) then
    l.map (fun p => if p.1 == k then (k, v) else p)
  else l ++ [(k, v)]

/-- Python `d.get(k)`: value at the first binding of `k`, if any. -/
def dictLookup {α : Type} (l : List (String × α)) (k : String) : Option α :=
  (l.find? (fun p => p.1 == k)).map (·.2)

/-- Flatten one level of optionality: the value of a dict lookup whose
stored values may themselves be null (`d.get(k)` returning None either for
a missing key or for a stored null). -/
def optFlat {α : Type} : Option (Option α) → Option α
  | some a => a
  | none => none

/-- One element of a submission's "values" array.  `none` models an absent
key, a JSON null, or (where the source checks `isinstance(..., str)`) a
non-string value. -/
structure ValueEntry where
  name : Option String
  value : Option String
deriving DecidableEq

/-- A main.py submission: a record carrying a "values" array. -/
structure SubmissionM where
  values : List ValueEntry
deriving DecidableEq

/-- An app.py submission: "values" plus the "submittedAt" / "timestamp"
fields consulted by dedupe_submissions. -/
structure SubmissionA where
  values : List ValueEntry
  submittedAt : Option Nat
  timestamp : Option Nat
deriving DecidableEq

/-- A CRM contact as returned by the contact-search endpoint: an id plus a
property map (values may be JSON null, hence `Option String`). -/
structure ContactM where
  id : String
  properties : List (String × Option String)
deriving DecidableEq

/-- One iteration of the loop in main.py extract_submission_email_and_fields:
`if name:` stores truthy names in the field map, and a name equal to "email"
sets the email to the raw value (main.py does not trim it). -/
def extractStep (acc : Option String × List (String × Option String))
    (f : ValueEntry) : Option String × List (String × Option String) :=
  let fields :=
    match f.name with
    | some n => if n = "" then acc.2 else dictInsert acc.2 n f.value
    | none => acc.2
  let email := if f.name = some "email" then f.value else acc.1
  (email, fields)

/-- main.py extract_submission_email_and_fields. -/
def extract_submission_email_and_fields (values : List ValueEntry) :
    Option String × List (String × Option String) :=
  values.foldl extractStep (none, [])

/-- The default HUBSPOT_CHECKBOX_PROPERTIES configuration of app.py. -/
def TERMS_PROP : String :=
  "i_agree_to_vrm_mortgage_services_s_terms_of_service_and_privacy_policy"

/-- The second default checkbox property of app.py. -/
def MARKETING_PROP : String :=
  "select_to_receive_information_from_vrm_mortgage_services_regarding_events_and_property_information"

/-- The default checkbox-property allowlist of app.py. -/
def CHECKBOX_PROPERTIES : List String := [TERMS_PROP, MARKETING_PROP]

/-- One iteration of the loop in app.py parse_submission: entries whose name
or value is not a string are skipped; an "email" entry sets the email to the
trimmed value; checkbox properties whose trimmed value is "Checked" or
"Not Checked" are collected into the consent map. -/
def parseStep (checkbox : List String)
    (acc : Option String × List (String × String)) (f : ValueEntry) :
    Option String × List (String × String) :=
  match f.name, f.value with
  | some n, some v =>
    if n = "email" then (some (pyStrip v), acc.2)
    else if n ∈ checkbox ∧
        (pyStrip v = "Checked" ∨ pyStrip v = "Not Checked") then
      (acc.1, dictInsert acc.2 n (pyStrip v))
    else acc
  | _, _ => acc

/-- app.py parse_submission. -/
def parse_submission (checkbox : List String) (values : List ValueEntry) :
    Option String × List (String × String) :=
  values.foldl (parseStep checkbox) (none, [])

/-- Emptiness test of main.py compute_updates_for_submission:
`existing_val not in (None, "", " ")` — null, empty string and a single
space count as empty. -/
def isEmptyVal : Option String → Bool
  | none => true
  | some s => s = "" || s = " "

/-- One iteration of the planner loop in compute_updates_for_submission:
skip when the submission lacks the field (or holds null), skip when the
contact's existing value is non-empty, otherwise stage the update. -/
def updStep (fields : List (String × Option String))
    (props : List (String × Option String))
    (updates : List (String × String)) (fp : String × String) :
    List (String × String) :=
  match optFlat (dictLookup fields fp.1) with
  | none => updates
  | some v =>
    if isEmptyVal (optFlat (dictLookup props fp.2)) then dictInsert updates fp.2 v
    else updates

/-- main.py compute_updates_for_submission: fold the per-form field map
(FORM_PROPERTY_MAP entry for this form, defaulting to the empty map) over
the staged-updates dict. -/
def compute_updates_for_submission
    (formPropertyMap : List (String × List (String × String)))
    (formId : String) (submissionFields : List (String × Option String))
    (contact : ContactM) : List (String × String) :=
  ((dictLookup formPropertyMap formId).getD []).foldl
    (updStep submissionFields contact.properties) []

/-- The update a single map entry would stage, if any (declarative reading
of `updStep`). -/
def stageOf (fields props : List (String × Option String))
    (fp : String × String) : Option (String × String) :=
  match optFlat (dictLookup fields fp.1) with
  | none => none
  | some v =>
    if isEmptyVal (optFlat (dictLookup props fp.2)) then some (fp.2, v) else none

/-- Result of processing one deduped row in main.py process_deduped_item.
`patched` records the update_contact call, when one is issued: the contact
id and the PATCHed properties. -/
structure ProcessResult where
  email : String
  status : String
  updatesCount : Nat
  patched : Option (String × List (String × String))
deriving DecidableEq

/-- main.py process_deduped_item.  The contact-search endpoint is an oracle
`lookupContact`; `dryRunForce` is the DRY_RUN_FORCE environment flag. -/
def process_deduped_item (dryRunForce : Bool)
    (formPropertyMap : List (String × List (String × String)))
    (lookupContact : String → Option ContactM)
    (formId email : String)
    (submissionFields : List (String × Option String))
    (mode : String) : ProcessResult :=
  let effectiveMode := if dryRunForce then "smoke" else mode
  match lookupContact email with
  | none => ⟨email, "contact_not_found", 0, none⟩
  | some contact =>
    let updates :=
      compute_updates_for_submission formPropertyMap formId submissionFields contact
    if dryRunForce || effectiveMode != "write" || updates.isEmpty then
      ⟨email, if effectiveMode = "write" then "dry_run" else effectiveMode,
        updates.length, none⟩
    else
      ⟨email, "updated", updates.length, some (contact.id, updates)⟩

/-- One row of a prepared deduped snapshot (main.py prepared JSON items). -/
structure BatchRow where
  email : String
  submission_fields : List (String × Option String)
deriving DecidableEq

/-- Summary returned by main.py run_batch_for_form.  `batch` records the
rows the run iterated over (the slice items[offset:end] of the source). -/
structure BatchSummary where
  status : String
  mode : String
  processedCount : Nat
  updatedCount : Nat
  notFoundCount : Nat
  offset : Nat
  nextOffset : Option Nat
  remaining : Nat
  total : Nat
  batch : List BatchRow
deriving DecidableEq

/-- main.py run_batch_for_form over a prepared snapshot `items`
(the loaded prepared JSON), with Python int offset/limit inputs. -/
def run_batch_for_form (dryRunForce : Bool)
    (formPropertyMap : List (String × List (String × String)))
    (lookupContact : String → Option ContactM)
    (formId : String) (mode : String) (offset limit : Int)
    (items : List BatchRow) : BatchSummary :=
  let effectiveMode := if dryRunForce then "smoke" else mode
  let total := items.length
  let offN : Nat := (if offset < 0 then 0 else offset).toNat
  let limN : Nat := (if limit ≤ 0 then 100 else limit).toNat
  if total ≤ offN then
    { status := "complete", mode := effectiveMode, processedCount := 0,
      updatedCount := 0, notFoundCount := 0, offset := offN,
      nextOffset := none, remaining := 0, total := total, batch := [] }
  else
    let endIdx := min (offN + limN) total
    let batch := (items.drop offN).take (endIdx - offN)
    let results := batch.map (fun row =>
      process_deduped_item dryRunForce formPropertyMap lookupContact formId
        row.email row.submission_fields mode)
    { status := "complete", mode := effectiveMode,
      processedCount := batch.length,
      updatedCount := (results.filter (fun r => r.status == "updated")).length,
      notFoundCount :=
        (results.filter (fun r => r.status == "contact_not_found")).length,
      offset := offN,
      nextOffset := if endIdx < total then some endIdx else none,
      remaining := total - endIdx, total := total, batch := batch }

/-- A deduped row produced by main.py dedupe_submissions_newest_first. -/
structure DedupedEntry where
  email : String
  submission_fields : List (String × Option String)
deriving DecidableEq

/-- The loop of main.py dedupe_submissions_newest_first: first occurrence
per lowercased email wins (the input is expected newest-first); falsy
emails (missing or empty) are skipped. -/
def dedupeNFGo (seenEmails : List String) (deduped : List DedupedEntry) :
    List SubmissionM → List DedupedEntry
  | [] => deduped
  | s :: rest =>
    match extract_submission_email_and_fields s.values with
    | (none, _) => dedupeNFGo seenEmails deduped rest
    | (some email, fields) =>
      if email = "" then dedupeNFGo seenEmails deduped rest
      else if pyLower email ∈ seenEmails then dedupeNFGo seenEmails deduped rest
      else
        dedupeNFGo (pyLower email :: seenEmails)
          (deduped ++ [⟨email, fields⟩]) rest

/-- main.py dedupe_submissions_newest_first. -/
def dedupe_submissions_newest_first (subs : List SubmissionM) :
    List DedupedEntry :=
  dedupeNFGo [] [] subs

/-- Python `a or b` over optional numbers (0 and None are falsy). -/
def pyOrNat (a : Option Nat) (b : Nat) : Nat :=
  match a with
  | some n => if n = 0 then b else n
  | none => b

/-- One iteration of the loop in app.py dedupe_submissions: keep, per exact
email string, the submission with the larger effective timestamp
(`submittedAt or timestamp or 0`, compared against the stored entry's
`submittedAt or 0`). -/
def dedupeStep (checkbox : List String)
    (latest : List (String × SubmissionA)) (s : SubmissionA) :
    List (String × SubmissionA) :=
  match (parse_submission checkbox s.values).1 with
  | none => latest
  | some email =>
    if email = "" then latest
    else
      match dictLookup latest email with
      | none => latest ++ [(email, s)]
      | some prev =>
        if pyOrNat prev.submittedAt 0 <
            pyOrNat s.submittedAt (pyOrNat s.timestamp 0) then
          dictInsert latest email s
        else latest

/-- app.py dedupe_submissions, over the concatenated snapshot lines. -/
def dedupe_submissions (checkbox : List String) (subs : List SubmissionA) :
    List SubmissionA :=
  (subs.foldl (dedupeStep checkbox) []).map (·.2)

/-- The PATCH payload app.py recover_contacts builds for one submission:
always both checkbox properties, defaulting missing boxes to
"Not Checked". -/
def recoverPayload (boxes : List (String × String)) : List (String × String) :=
  [(MARKETING_PROP, (dictLookup boxes MARKETING_PROP).getD "Not Checked"),
   (TERMS_PROP, (dictLookup boxes TERMS_PROP).getD "Not Checked")]

/-- Does a submission's parsed email match the requested start email
(app.py: `email and email.lower().strip() == start_email.lower().strip()`). -/
def matchesStart (checkbox : List String) (startEmail : String)
    (s : SubmissionA) : Bool :=
  match (parse_submission checkbox s.values).1 with
  | some e => e ≠ "" && pyStrip (pyLower e) == pyStrip (pyLower startEmail)
  | none => false

/-- app.py recover_contacts, reduced to its externally visible PATCH calls:
the list of (contact id, properties payload) pairs it sends.  Rows without
an email or without a matching CRM contact are skipped; processing starts
just after `startEmail` (when found) and covers at most `limit` rows. -/
def recover_contacts (checkbox : List String)
    (lookupContactId : String → Option String)
    (startEmail : Option String) (limit : Nat) (subs : List SubmissionA) :
    List (String × List (String × String)) :=
  let startIdx :=
    match startEmail with
    | none => 0
    | some se =>
      match subs.findIdx? (matchesStart checkbox se) with
      | some i => i + 1
      | none => 0
  let endIdx := min (startIdx + limit) subs.length
  ((subs.drop startIdx).take (endIdx - startIdx)).filterMap (fun s =>
    match parse_submission checkbox s.values with
    | (none, _) => none
    | (some e, boxes) =>
      if e = "" then none
      else
        match lookupContactId e with
        | none => none
        | some cid => some (cid, recoverPayload boxes))

/-- Value of one contact property after a CRM PATCH with the given
properties payload, per the upstream contact-update API of spec section 6:
properties named in the payload take the payload's value, all others keep
their existing value. -/
def patchedValue (props : List (String × Option String))
    (payload : List (String × String)) (p : String) : Option String :=
  match dictLookup payload p with
  | some v => some v
  | none => optFlat (dictLookup props p)

/-- Shape of the "next" member of a submissions-page response body. -/
inductive NextField
  | absent
  | obj (after : Option String)
  | str (s : String)
deriving DecidableEq

/-- Parsed body of a submissions-page response.  `paging = some a` models a
"paging" dict whose "next"."after" chain yields `a`; `paging = none` models
an absent or non-dict "paging" member. -/
structure SubsResponse where
  results : List SubmissionM
  paging : Option (Option String)
  next : NextField
deriving DecidableEq

/-- One HTTP response from the upstream API, as seen by safe_request. -/
structure Resp where
  status : Nat
  retryAfter : Option String
  body : SubsResponse
deriving DecidableEq

/-- Python `int(s)` with ValueError surfaced as `none`: optional sign,
then decimal digits, surrounding whitespace ignored. -/
def pyToInt (s : String) : Option Int :=
  match (pyStrip s).data with
  | [] => none
  | c :: rest =>
    if c = '-' then (parseNatDigits rest).map (fun n => -(n : Int))
    else if c = '+' then (parseNatDigits rest).map (fun n => (n : Int))
    else (parseNatDigits (c :: rest)).map (fun n => (n : Int))

/-- Sleep duration before retrying a 429 response in safe_request:
`int(headers.get("Retry-After", "3"))` with a fallback of 3 on
ValueError. -/
def retrySecs (r : Resp) : Int :=
  (pyToInt (r.retryAfter.getD "3")).getD 3

/-- Outcome of safe_request: a returned response or a raised HTTPError. -/
inductive SROut
  | ok (r : Resp)
  | err (status : Nat)
deriving DecidableEq

/-- Outcome plus the retry sleeps performed along the way. -/
structure SRResult where
  out : SROut
  sleeps : List Int
deriving DecidableEq

/-- The retry loop of main.py safe_request.  `responses idx` is the response
to the idx-th issued request; `left` counts the retries still allowed
(max_retries = 5 in the source, so the loop starts with `left = 5`).
A 429 with no retries left raises via raise_for_status; any other non-2xx
status raises immediately; anything below 400 is returned. -/
def goSR (responses : Nat → Resp) : Nat → Nat → SRResult
  | idx, 0 =>
    let r := responses idx
    if r.status = 429 then ⟨SROut.err 429, []⟩
    else if 400 ≤ r.status then ⟨SROut.err r.status, []⟩
    else ⟨SROut.ok r, []⟩
  | idx, left + 1 =>
    let r := responses idx
    if r.status = 429 then
      let rest := goSR responses (idx + 1) left
      ⟨rest.out, retrySecs r :: rest.sleeps⟩
    else if 400 ≤ r.status then ⟨SROut.err r.status, []⟩
    else ⟨SROut.ok r, []⟩

/-- main.py safe_request. -/
def safe_request (responses : Nat → Resp) : SRResult :=
  goSR responses 0 5

/-- Python falsiness of an optional string (None and "" are falsy). -/
def pyFalsy : Option String → Bool
  | none => true
  | some s => s = ""

/-- The continuation-token normalization of main.py fetch_form_submissions:
try `paging.next.after`, then (if still falsy) a dict-shaped `next.after`,
then (if still falsy) a string-shaped `next`. -/
def normalize_next_after (d : SubsResponse) : Option String :=
  let n1 : Option String :=
    match d.paging with
    | some a => a
    | none => none
  let n2 : Option String :=
    if pyFalsy n1 then
      match d.next with
      | NextField.obj a => a
      | _ => n1
    else n1
  let n3 : Option String :=
    if pyFalsy n2 then
      match d.next with
      | NextField.str s => some s
      | _ => n2
    else n2
  n3

/-- main.py fetch_form_submissions: one page fetch through safe_request,
returning the results and the normalized continuation token, or the raised
HTTP status. -/
def fetch_form_submissions (responses : Nat → Resp) :
    Except Nat (List SubmissionM × Option String) :=
  match safe_request responses with
  | ⟨SROut.err s, _⟩ => Except.error s
  | ⟨SROut.ok r, _⟩ => Except.ok (r.body.results, normalize_next_after r.body)

/-- One HTTP response as seen by app.py fetch_submissions (which reads only
`paging.next.after`). -/
structure RespA where
  status : Nat
  results : List SubmissionA
  pagingNextAfter : Option String
deriving DecidableEq

/-- Outcome of one page fetch in app.py fetch_submissions. -/
inductive FetchAOut
  | httpExc (code : Nat) (detail : String)
  | httpErr (status : Nat)
  | page (results : List SubmissionA) (after : Option String)
deriving DecidableEq

/-- One iteration of the fetch loop in app.py fetch_submissions: a 404
raises HTTPException("Form not found or deleted."), any other non-2xx
raises via raise_for_status, otherwise the page is returned. -/
def fetch_submissions_step (r : RespA) : FetchAOut :=
  if r.status = 404 then FetchAOut.httpExc 404 "Form not found or deleted."
  else if 400 ≤ r.status then FetchAOut.httpErr r.status
  else FetchAOut.page r.results r.pagingNextAfter

/-- One page of submissions as consumed by the streaming run loop. -/
structure PageM where
  results : List SubmissionM
  after : Option String
deriving DecidableEq

/-- The page-fetch loop of main.py run_recovery_streaming, with the page
stream made explicit: the loop stops on an empty results list or a missing
continuation token; an exhausted stream behaves like an empty page. -/
def collectStream : List PageM → List SubmissionM
  | [] => []
  | p :: rest =>
    if p.results = [] then []
    else
      p.results ++
        match p.after with
        | none => []
        | some _ => collectStream rest

/-- main.py process_submission_streaming: skip submissions with a falsy
email, otherwise reuse process_deduped_item. -/
def process_submission_streaming (dryRunForce : Bool)
    (formPropertyMap : List (String × List (String × String)))
    (lookupContact : String → Option ContactM)
    (formId : String) (mode : String) (s : SubmissionM) :
    Option ProcessResult :=
  match extract_submission_email_and_fields s.values with
  | (none, _) => none
  | (some email, fields) =>
    if email = "" then none
    else some (process_deduped_item dryRunForce formPropertyMap lookupContact
      formId email fields mode)

/-- main.py run_recovery_streaming.  `killDuring` is the value the KILLED
flag would have at the n-th in-loop poll opportunity; the source loop body
contains no read of KILLED, so the parameter is consulted nowhere past the
endpoint's entry check. -/
def run_recovery_streaming (dryRunForce : Bool)
    (formPropertyMap : List (String × List (String × String)))
    (lookupContact : String → Option ContactM)
    (pagesFor : String → List PageM)
    (_killDuring : Nat → Bool) (mode : String) : List ProcessResult :=
  let effectiveMode := if dryRunForce then "smoke" else mode
  (formPropertyMap.map (·.1)).flatMap (fun formId =>
    (collectStream (pagesFor formId)).filterMap
      (process_submission_streaming dryRunForce formPropertyMap lookupContact
        formId effectiveMode))

/-- Outcome of the main.py /run-all endpoint. -/
inductive RunAllOut
  | blocked
  | badMode
  | done (mode : String) (processed : List ProcessResult)
deriving DecidableEq

/-- The main.py /run-all endpoint: KILLED is read once at entry
(`killedAtEntry`); a valid mode then runs run_recovery_streaming to
completion and reports status "complete" (`RunAllOut.done`). -/
def run_all (killedAtEntry : Bool) (killDuring : Nat → Bool)
    (dryRunForce : Bool)
    (formPropertyMap : List (String × List (String × String)))
    (lookupContact : String → Option ContactM)
    (pagesFor : String → List PageM) (mode : String) : RunAllOut :=
  if killedAtEntry then RunAllOut.blocked
  else if mode = "smoke" ∨ mode = "write" then
    RunAllOut.done (if dryRunForce then "smoke" else mode)
      (run_recovery_streaming dryRunForce formPropertyMap lookupContact
        pagesFor killDuring mode)
  else RunAllOut.badMode


theorem dictInsert_of_not_mem {α : Type} (l : List (String × α)) (k : String)
    (v : α) (h : ∀ p ∈ l, p.1 ≠ k) : dictInsert l k v = l ++ [(k, v)] := by
  unfold dictInsert
  rw [if_neg]
  simp only [List.any_eq_true, beq_iff_eq, not_exists]
  intro p
  rintro ⟨hp, hk⟩
  exact h p hp hk

theorem map_fst_dictInsert_of_mem {α : Type} (l : List (String × α))
    (k : String) (v : α) (h : ∃ p ∈ l, p.1 = k) :
    (dictInsert l k v).map (·.1) = l.map (·.1) := by
  unfold dictInsert
  rw [if_pos]
  · rw [List.map_map]
    apply List.map_congr_left
    intro p _
    by_cases hpk : p.1 = k
    · simp [hpk]
    · simp [hpk]
  · obtain ⟨p, hp, hk⟩ := h
    simp only [List.any_eq_true, beq_iff_eq]
    exact ⟨p, hp, hk⟩

theorem mem_map_fst_dictInsert {α : Type} {l : List (String × α)}
    {k a : String} {v : α} (h : a ∈ (dictInsert l k v).map (·.1)) :
    a ∈ l.map (·.1) ∨ a = k := by
  unfold dictInsert at h
  by_cases hc : l.any (fun p => p.1 == k)
  · rw [if_pos hc, List.map_map] at h
    rcases List.mem_map.mp h with ⟨p, hp, hpa⟩
    by_cases hpk : p.1 = k
    · right
      simp [hpk] at hpa
      exact hpa.symm
    · left
      simp [hpk] at hpa
      exact hpa ▸ List.mem_map.mpr ⟨p, hp, rfl⟩
  · rw [if_neg hc, List.map_append] at h
    rcases List.mem_append.mp h with h | h
    · left; exact h
    · right; simpa using h

theorem dictInsert_forall {α : Type} {P : String × α → Prop}
    {l : List (String × α)} {k : String} {v : α}
    (hl : ∀ p ∈ l, P p) (hkv : P (k, v)) :
    ∀ p ∈ dictInsert l k v, P p := by
  intro p hp
  unfold dictInsert at hp
  split at hp
  · rcases List.mem_map.mp hp with ⟨q, hq, hqe⟩
    by_cases hqk : q.1 = k
    · simp only [hqk, beq_self_eq_true, if_true] at hqe
      exact hqe ▸ hkv
    · simp [hqk] at hqe
      exact hqe ▸ hl q hq
  · rcases List.mem_append.mp hp with h | h
    · exact hl p h
    · simp only [List.mem_singleton] at h
      exact h ▸ hkv

theorem stageOf_join_none {fields props : List (String × Option String)}
    {fp : String × String} (h : optFlat (dictLookup fields fp.1) = none) :
    stageOf fields props fp = none := by
  unfold stageOf
  rw [h]

theorem stageOf_join_some {fields props : List (String × Option String)}
    {fp : String × String} {v : String}
    (h : optFlat (dictLookup fields fp.1) = some v) :
    stageOf fields props fp =
      if isEmptyVal (optFlat (dictLookup props fp.2)) then some (fp.2, v)
      else none := by
  unfold stageOf
  rw [h]

theorem updStep_of_stage_none {fields props : List (String × Option String)}
    {fp : String × String} (acc : List (String × String))
    (h : stageOf fields props fp = none) :
    updStep fields props acc fp = acc := by
  unfold updStep
  cases hj : optFlat (dictLookup fields fp.1) with
  | none => rfl
  | some v =>
    rw [stageOf_join_some hj] at h
    by_cases he : isEmptyVal (optFlat (dictLookup props fp.2)) = true
    · rw [if_pos he] at h
      cases h
    · show (if isEmptyVal (optFlat (dictLookup props fp.2)) = true
          then dictInsert acc fp.2 v else acc) = acc
      rw [if_neg he]

theorem updStep_of_stage_some {fields props : List (String × Option String)}
    {fp : String × String} {kv : String × String}
    (acc : List (String × String))
    (h : stageOf fields props fp = some kv) :
    updStep fields props acc fp = dictInsert acc kv.1 kv.2 := by
  unfold updStep
  cases hj : optFlat (dictLookup fields fp.1) with
  | none => rw [stageOf_join_none hj] at h; cases h
  | some v =>
    rw [stageOf_join_some hj] at h
    by_cases he : isEmptyVal (optFlat (dictLookup props fp.2)) = true
    · rw [if_pos he] at h
      injection h with h2
      show (if isEmptyVal (optFlat (dictLookup props fp.2)) = true
          then dictInsert acc fp.2 v else acc) = dictInsert acc kv.1 kv.2
      rw [if_pos he, ← h2]
    · rw [if_neg he] at h
      cases h

theorem stageOf_some_fst {fields props : List (String × Option String)}
    {fp : String × String} {kv : String × String}
    (h : stageOf fields props fp = some kv) : kv.1 = fp.2 := by
  cases hj : optFlat (dictLookup fields fp.1) with
  | none => rw [stageOf_join_none hj] at h; cases h
  | some v =>
    rw [stageOf_join_some hj] at h
    by_cases he : isEmptyVal (optFlat (dictLookup props fp.2)) = true
    · rw [if_pos he] at h
      injection h with h2
      rw [← h2]
    · rw [if_neg he] at h
      cases h

theorem foldl_updStep_eq (fields props : List (String × Option String)) :
    ∀ (m acc : List (String × String)),
      (m.map (·.2)).Nodup →
      (∀ a ∈ acc.map (·.1), a ∉ m.map (·.2)) →
      m.foldl (updStep fields props) acc =
        acc ++ m.filterMap (stageOf fields props) := by
  intro m
  induction m with
  | nil => intro acc _ _; simp
  | cons fp rest ih =>
    intro acc hnd hdisj
    rw [List.map_cons, List.nodup_cons] at hnd
    obtain ⟨hfp2, hnd2⟩ := hnd
    rw [List.foldl_cons]
    cases hstage : stageOf fields props fp with
    | none =>
      rw [updStep_of_stage_none acc hstage]
      rw [ih acc hnd2 (fun a ha hmem => hdisj a ha (by simp [hmem]))]
      rw [List.filterMap_cons_none hstage]
    | some kv =>
      have hk1 : kv.1 = fp.2 := stageOf_some_fst hstage
      rw [updStep_of_stage_some acc hstage]
      have hnotin : ∀ p ∈ acc, p.1 ≠ kv.1 := by
        intro p hp hpk
        exact hdisj p.1 (List.mem_map.mpr ⟨p, hp, rfl⟩)
          (by simp [hpk, hk1])
      rw [dictInsert_of_not_mem acc kv.1 kv.2 hnotin]
      have hkv : acc ++ [(kv.1, kv.2)] = acc ++ [kv] := by simp
      rw [hkv]
      rw [ih (acc ++ [kv]) hnd2 ?_]
      · rw [List.filterMap_cons_some hstage, List.append_assoc]
        rfl
      · intro a ha
        rw [List.map_append] at ha
        rcases List.mem_append.mp ha with h | h
        · exact fun hmem => hdisj a h (by simp [hmem])
        · simp only [List.map_cons, List.map_nil, List.mem_singleton] at h
          rw [h, hk1]
          exact hfp2

theorem stageOf_eq_some_iff (fields props : List (String × Option String))
    (fp : String × String) (hp v : String) :
    stageOf fields props fp = some (hp, v) ↔
      optFlat (dictLookup fields fp.1) = some v ∧ fp.2 = hp ∧
        isEmptyVal (optFlat (dictLookup props hp)) = true := by
  cases hj : optFlat (dictLookup fields fp.1) with
  | none =>
    rw [stageOf_join_none hj]
    constructor
    · intro h; cases h
    · rintro ⟨hv, _, _⟩; cases hv
  | some w =>
    rw [stageOf_join_some hj]
    by_cases he : isEmptyVal (optFlat (dictLookup props fp.2)) = true
    · rw [if_pos he]
      constructor
      · intro h
        injection h with h2
        rw [Prod.mk.injEq] at h2
        obtain ⟨h3, h4⟩ := h2
        refine ⟨by rw [h4], h3, ?_⟩
        rw [← h3]
        exact he
      · rintro ⟨hv, hfp, _⟩
        injection hv with hv2
        rw [← hfp, hv2]
    · rw [if_neg he]
      constructor
      · intro h; cases h
      · rintro ⟨hv, hfp, hemp⟩
        rw [← hfp] at hemp
        exact absurd hemp he

theorem compute_updates_eq_filterMap
    (fpm : List (String × List (String × String))) (fid : String)
    (fields : List (String × Option String)) (c : ContactM)
    (m : List (String × String)) (hm : dictLookup fpm fid = some m)
    (hnd : (m.map (·.2)).Nodup) :
    compute_updates_for_submission fpm fid fields c =
      m.filterMap (stageOf fields c.properties) := by
  unfold compute_updates_for_submission
  rw [hm, Option.getD_some]
  rw [foldl_updStep_eq fields c.properties m [] hnd (by simp)]
  simp

theorem nonempty_prop_not_in_foldl (fields props : List (String × Option String))
    (hp : String) (hne : isEmptyVal (optFlat (dictLookup props hp)) = false) :
    ∀ (m acc : List (String × String)), hp ∉ acc.map (·.1) →
      hp ∉ (m.foldl (updStep fields props) acc).map (·.1) := by
  intro m
  induction m with
  | nil => intro acc h; simpa using h
  | cons fp rest ih =>
    intro acc hacc
    rw [List.foldl_cons]
    cases hstage : stageOf fields props fp with
    | none =>
      rw [updStep_of_stage_none acc hstage]
      exact ih acc hacc
    | some kv =>
      rw [updStep_of_stage_some acc hstage]
      apply ih
      intro hmem
      rcases mem_map_fst_dictInsert hmem with h | h
      · exact hacc h
      · have hk1 := stageOf_some_fst hstage
        have hemp : isEmptyVal (optFlat (dictLookup props fp.2)) = true := by
          have h2 := (stageOf_eq_some_iff fields props fp kv.1 kv.2).mp hstage
          obtain ⟨_, hfp, hemp⟩ := h2
          rw [hfp]
          exact hemp
        rw [h, hk1, hemp] at hne
        cases hne

theorem patched_eq_some {dr : Bool}
    {fpm : List (String × List (String × String))}
    {lookup : String → Option ContactM} {fid email : String}
    {fields : List (String × Option String)} {mode : String}
    {p : String × List (String × String)}
    (h : (process_deduped_item dr fpm lookup fid email fields mode).patched
      = some p) :
    ∃ c, lookup email = some c ∧ p.1 = c.id ∧
      p.2 = compute_updates_for_submission fpm fid fields c ∧
      dr = false ∧ mode = "write" ∧ p.2 ≠ [] := by
  unfold process_deduped_item at h
  split at h
  · split at h <;> simp at h
  · next hdr =>
    split at h
    · simp at h
    · next c hl =>
      dsimp only [] at h
      split at h
      · simp at h
      · next hc =>
        simp only [Bool.or_eq_true, not_or, Bool.not_eq_true] at hc
        obtain ⟨⟨hdr2, hmode⟩, hemp⟩ := hc
        rw [bne_eq_false_iff_eq] at hmode
        dsimp only [] at h
        injection h with h2
        refine ⟨c, hl, ?_, ?_, hdr2, hmode, ?_⟩
        · rw [← h2]
        · rw [← h2]
        · rw [← h2]
          intro hnil
          dsimp only [] at hnil
          rw [hnil] at hemp
          simp at hemp

/-- C1 counterexample: the recover_contacts path of app.py violates the
never-overwrite claim.  For a contact whose terms-of-service property
already holds the non-empty value "Checked", a submission carrying only an
email makes recover_contacts PATCH that property to "Not Checked" (the
payload's default), altering the existing non-empty value. -/
theorem recover_contacts_overwrites_nonempty :
    isEmptyVal (optFlat (dictLookup [(TERMS_PROP, some "Checked")] TERMS_PROP))
        = false
    ∧ recover_contacts CHECKBOX_PROPERTIES (fun _ => some "42") none 700
        [⟨[⟨some "email", some "jane@x.com"⟩], none, none⟩]
      = [("42", [(MARKETING_PROP, "Not Checked"), (TERMS_PROP, "Not Checked")])]
    ∧ patchedValue [(TERMS_PROP, some "Checked")]
        [(MARKETING_PROP, "Not Checked"), (TERMS_PROP, "Not Checked")] TERMS_PROP
      = some "Not Checked"
    ∧ (some "Not Checked" : Option String) ≠
        optFlat (dictLookup [(TERMS_PROP, some "Checked")] TERMS_PROP) := by
  refine ⟨by decide, by decide, by decide, by decide⟩

/-- C1 (amended): the fill-only-blanks invariant holds for the planner
path: compute_updates_for_submission never stages a property whose existing
contact value is non-empty, and hence no PATCH issued through
process_deduped_item (every main.py run path) touches such a property.  The
app.py recover_contacts path, by contrast, PATCHes both checkbox properties
unconditionally and is exempt from the invariant (see the
counterexample). -/
theorem fill_only_blanks_planner :
    (∀ (fpm : List (String × List (String × String))) (fid : String)
        (fields : List (String × Option String)) (c : ContactM) (hp : String),
        isEmptyVal (optFlat (dictLookup c.properties hp)) = false →
        hp ∉ (compute_updates_for_submission fpm fid fields c).map (·.1))
    ∧ (∀ (dr : Bool) (fpm : List (String × List (String × String)))
        (lookup : String → Option ContactM) (fid email : String)
        (fields : List (String × Option String)) (mode : String)
        (p : String × List (String × String)) (c : ContactM) (hp : String),
        (process_deduped_item dr fpm lookup fid email fields mode).patched
          = some p →
        lookup email = some c →
        isEmptyVal (optFlat (dictLookup c.properties hp)) = false →
        hp ∉ p.2.map (·.1)) := by
  constructor
  · intro fpm fid fields c hp hne
    unfold compute_updates_for_submission
    exact nonempty_prop_not_in_foldl fields c.properties hp hne _ [] (by simp)
  · intro dr fpm lookup fid email fields mode p c hp hpatch hlook hne
    obtain ⟨c2, hl2, _, hupd, _, _, _⟩ := patched_eq_some hpatch
    rw [hlook] at hl2
    injection hl2 with hc2
    rw [hupd, ← hc2]
    unfold compute_updates_for_submission
    exact nonempty_prop_not_in_foldl fields c.properties hp hne _ [] (by simp)

/-- Witness for C1's amended theorem at a concrete input: a contact whose
property "p" holds "Checked" is non-empty, and the planner's update plan
for a submission offering a fresh value for "p" does not contain "p". -/
theorem fill_only_blanks_planner_witness :
    isEmptyVal (optFlat (dictLookup
        (ContactM.mk "42" [("p", some "Checked")]).properties "p")) = false
    ∧ "p" ∉ (compute_updates_for_submission [("f1", [("opt_in", "p")])] "f1"
        [("opt_in", some "New Value")]
        (ContactM.mk "42" [("p", some "Checked")])).map (·.1) :=
  ⟨by decide, fill_only_blanks_planner.1 [("f1", [("opt_in", "p")])] "f1"
    [("opt_in", some "New Value")] (ContactM.mk "42" [("p", some "Checked")])
    "p" (by decide)⟩

/-- C2: in smoke mode or under DRY_RUN_FORCE, process_deduped_item never
issues an update_contact PATCH, even when the computed plan is non-empty;
a PATCH happens only with DRY_RUN_FORCE off, requested mode "write", and a
non-empty plan. -/
theorem mode_gating_no_patch :
    (∀ (dr : Bool) (fpm : List (String × List (String × String)))
        (lookup : String → Option ContactM) (fid email : String)
        (fields : List (String × Option String)) (mode : String),
        mode = "smoke" ∨ dr = true →
        (process_deduped_item dr fpm lookup fid email fields mode).patched
          = none)
    ∧ (∀ (dr : Bool) (fpm : List (String × List (String × String)))
        (lookup : String → Option ContactM) (fid email : String)
        (fields : List (String × Option String)) (mode : String)
        (p : String × List (String × String)),
        (process_deduped_item dr fpm lookup fid email fields mode).patched
          = some p →
        dr = false ∧ mode = "write" ∧ p.2 ≠ []) := by
  constructor
  · intro dr fpm lookup fid email fields mode hsm
    cases hpn : (process_deduped_item dr fpm lookup fid email fields
        mode).patched with
    | none => rfl
    | some p =>
      obtain ⟨c, _, _, _, hdr, hmode, _⟩ := patched_eq_some hpn
      rcases hsm with h | h
      · rw [h] at hmode
        exact absurd hmode (by decide)
      · rw [h] at hdr
        exact absurd hdr (by decide)
  · intro dr fpm lookup fid email fields mode p hpn
    obtain ⟨c, _, _, _, hdr, hmode, hne⟩ := patched_eq_some hpn
    exact ⟨hdr, hmode, hne⟩

/-- Witness for C2 at a concrete input: with mode "smoke" and a contact
whose plan would be non-empty, no PATCH is issued. -/
theorem mode_gating_no_patch_witness :
    ("smoke" = "smoke" ∨ (false : Bool) = true)
    ∧ (process_deduped_item false [("f1", [("opt_in", "p")])]
        (fun _ => some (ContactM.mk "42" [("p", none)])) "f1" "a@x.com"
        [("opt_in", some "Checked")] "smoke").patched = none :=
  ⟨Or.inl rfl, mode_gating_no_patch.1 false [("f1", [("opt_in", "p")])]
    (fun _ => some (ContactM.mk "42" [("p", none)])) "f1" "a@x.com"
    [("opt_in", some "Checked")] "smoke" (Or.inl rfl)⟩

/-- C3: the planner stages exactly the (crm property, value) pairs whose
submission field is mapped for the form, present (non-null) in the
submission, and whose existing contact value is empty (null, "" or " "),
stated for form maps without duplicate target properties; and on the
spec's concrete scenario the plan is the single pair
(marketing_opt_in, Checked) when the existing value is "", and empty when
the existing value is already "Checked". -/
theorem planner_stages_exactly :
    (∀ (fpm : List (String × List (String × String))) (fid : String)
        (m : List (String × String)) (fields : List (String × Option String))
        (c : ContactM) (hp v : String),
        dictLookup fpm fid = some m →
        (m.map (·.2)).Nodup →
        ((hp, v) ∈ compute_updates_for_submission fpm fid fields c ↔
          ∃ fp ∈ m, optFlat (dictLookup fields fp.1) = some v ∧ fp.2 = hp ∧
            isEmptyVal (optFlat (dictLookup c.properties hp)) = true))
    ∧ compute_updates_for_submission [("f1", [("opt_in", "marketing_opt_in")])]
        "f1" [("email", some "jane@x.com"), ("opt_in", some "Checked")]
        (ContactM.mk "42" [("marketing_opt_in", some "")])
      = [("marketing_opt_in", "Checked")]
    ∧ compute_updates_for_submission [("f1", [("opt_in", "marketing_opt_in")])]
        "f1" [("email", some "jane@x.com"), ("opt_in", some "Checked")]
        (ContactM.mk "42" [("marketing_opt_in", some "Checked")]) = [] := by
  refine ⟨?_, by decide, by decide⟩
  intro fpm fid m fields c hp v hm hnd
  rw [compute_updates_eq_filterMap fpm fid fields c m hm hnd]
  rw [List.mem_filterMap]
  constructor
  · rintro ⟨fp, hfp, hst⟩
    exact ⟨fp, hfp, (stageOf_eq_some_iff fields c.properties fp hp v).mp hst⟩
  · rintro ⟨fp, hfp, hcond⟩
    exact ⟨fp, hfp, (stageOf_eq_some_iff fields c.properties fp hp v).mpr hcond⟩

/-- Witness for C3 at the spec's scenario: the hypotheses hold and the
membership characterization applies. -/
theorem planner_stages_exactly_witness :
    dictLookup [("f1", [("opt_in", "marketing_opt_in")])] "f1"
      = some [("opt_in", "marketing_opt_in")]
    ∧ ([("opt_in", "marketing_opt_in")].map
        (fun fp : String × String => fp.2)).Nodup
    ∧ (("marketing_opt_in", "Checked") ∈ compute_updates_for_submission
        [("f1", [("opt_in", "marketing_opt_in")])] "f1"
        [("email", some "jane@x.com"), ("opt_in", some "Checked")]
        (ContactM.mk "42" [("marketing_opt_in", some "")]) ↔
      ∃ fp ∈ [("opt_in", "marketing_opt_in")],
        optFlat (dictLookup
          [("email", some "jane@x.com"), ("opt_in", some "Checked")] fp.1)
          = some "Checked" ∧ fp.2 = "marketing_opt_in" ∧
        isEmptyVal (optFlat (dictLookup
          (ContactM.mk "42" [("marketing_opt_in", some "")]).properties
          "marketing_opt_in")) = true) :=
  ⟨by decide, by decide, planner_stages_exactly.1
    [("f1", [("opt_in", "marketing_opt_in")])] "f1"
    [("opt_in", "marketing_opt_in")]
    [("email", some "jane@x.com"), ("opt_in", some "Checked")]
    (ContactM.mk "42" [("marketing_opt_in", some "")])
    "marketing_opt_in" "Checked" (by decide) (by decide)⟩

theorem dictLookup_eq_none {α : Type} {l : List (String × α)} {k : String}
    (h : dictLookup l k = none) : ∀ p ∈ l, p.1 ≠ k := by
  unfold dictLookup at h
  cases hf : l.find? (fun p => p.1 == k) with
  | none =>
    intro p hp hpk
    have := List.find?_eq_none.mp hf p hp
    simp [hpk] at this
  | some q => rw [hf] at h; cases h

theorem dictLookup_eq_some_mem {α : Type} {l : List (String × α)} {k : String}
    {v : α} (h : dictLookup l k = some v) : ∃ p ∈ l, p.1 = k := by
  unfold dictLookup at h
  cases hf : l.find? (fun p => p.1 == k) with
  | none => rw [hf] at h; cases h
  | some q =>
    have hq := List.find?_some hf
    have hm := List.mem_of_find?_eq_some hf
    exact ⟨q, hm, by simpa using hq⟩

theorem dedupeStep_invariant (cb : List String) (s : SubmissionA)
    (latest : List (String × SubmissionA))
    (hnd : (latest.map (·.1)).Nodup)
    (hpair : ∀ p ∈ latest, (parse_submission cb p.2.values).1 = some p.1) :
    ((dedupeStep cb latest s).map (·.1)).Nodup ∧
      ∀ p ∈ dedupeStep cb latest s,
        (parse_submission cb p.2.values).1 = some p.1 := by
  unfold dedupeStep
  split
  · exact ⟨hnd, hpair⟩
  · rename_i email hp
    split
    · exact ⟨hnd, hpair⟩
    · rename_i he
      split
      · rename_i hl
        constructor
        · rw [List.map_append, List.nodup_append]
          refine ⟨hnd, by simp, ?_⟩
          intro a ha hb
          simp only [List.map_cons, List.map_nil, List.mem_singleton] at hb
          rw [hb] at ha
          rcases List.mem_map.mp ha with ⟨p, hpmem, hpk⟩
          exact dictLookup_eq_none hl p hpmem hpk
        · intro p hp2
          rcases List.mem_append.mp hp2 with h | h
          · exact hpair p h
          · simp only [List.mem_singleton] at h
            rw [h]
            exact hp
      · rename_i prev hl
        split
        · constructor
          · rw [map_fst_dictInsert_of_mem latest email s
              (dictLookup_eq_some_mem hl)]
            exact hnd
          · exact dictInsert_forall hpair hp
        · exact ⟨hnd, hpair⟩

theorem dedupe_foldl_invariant (cb : List String) :
    ∀ (subs : List SubmissionA) (latest : List (String × SubmissionA)),
      (latest.map (·.1)).Nodup →
      (∀ p ∈ latest, (parse_submission cb p.2.values).1 = some p.1) →
      ((subs.foldl (dedupeStep cb) latest).map (·.1)).Nodup ∧
        ∀ p ∈ subs.foldl (dedupeStep cb) latest,
          (parse_submission cb p.2.values).1 = some p.1 := by
  intro subs
  induction subs with
  | nil => intro latest hnd hpair; exact ⟨hnd, hpair⟩
  | cons s rest ih =>
    intro latest hnd hpair
    rw [List.foldl_cons]
    obtain ⟨hnd2, hpair2⟩ := dedupeStep_invariant cb s latest hnd hpair
    exact ih (dedupeStep cb latest s) hnd2 hpair2

theorem dedupe_submissions_emails_nodup (cb : List String)
    (subs : List SubmissionA) :
    ((dedupe_submissions cb subs).map
      (fun s => (parse_submission cb s.values).1)).Nodup := by
  unfold dedupe_submissions
  obtain ⟨hnd, hpair⟩ :=
    dedupe_foldl_invariant cb subs [] (by simp) (by simp)
  rw [List.map_map]
  have heq : (subs.foldl (dedupeStep cb) []).map
      ((fun s => (parse_submission cb s.values).1) ∘ (·.2)) =
      (subs.foldl (dedupeStep cb) []).map (fun p => some p.1) :=
    List.map_congr_left (fun p hp => hpair p hp)
  rw [heq]
  have heq2 : (subs.foldl (dedupeStep cb) []).map
      (fun p : String × SubmissionA => some p.1) =
      ((subs.foldl (dedupeStep cb) []).map (·.1)).map some := by
    rw [List.map_map]
    rfl
  rw [heq2]
  exact hnd.map (fun a b hab => Option.some_injective _ hab)

theorem dedupeNFGo_nodup :
    ∀ (subs : List SubmissionM) (seen : List String)
      (acc : List DedupedEntry),
      (acc.map (fun e => pyLower e.email)).Nodup →
      (∀ e ∈ acc, pyLower e.email ∈ seen) →
      ((dedupeNFGo seen acc subs).map (fun e => pyLower e.email)).Nodup := by
  intro subs
  induction subs with
  | nil =>
    intro seen acc hnd _
    exact hnd
  | cons s rest ih =>
    intro seen acc hnd hsub
    unfold dedupeNFGo
    cases hx : extract_submission_email_and_fields s.values with
    | mk eo fields =>
      cases eo with
      | none => exact ih seen acc hnd hsub
      | some email =>
        show ((if email = "" then dedupeNFGo seen acc rest
            else if pyLower email ∈ seen then dedupeNFGo seen acc rest
            else dedupeNFGo (pyLower email :: seen)
              (acc ++ [⟨email, fields⟩]) rest).map
          (fun e => pyLower e.email)).Nodup
        by_cases he : email = ""
        · rw [if_pos he]
          exact ih seen acc hnd hsub
        · rw [if_neg he]
          by_cases hmem : pyLower email ∈ seen
          · rw [if_pos hmem]
            exact ih seen acc hnd hsub
          · rw [if_neg hmem]
            apply ih (pyLower email :: seen)
              (acc ++ [DedupedEntry.mk email fields])
            · rw [List.map_append, List.nodup_append]
              refine ⟨hnd, by simp, ?_⟩
              intro a ha hb
              simp only [List.map_cons, List.map_nil,
                List.mem_singleton] at hb
              rcases List.mem_map.mp ha with ⟨e, hemem, heq⟩
              apply hmem
              rw [← hb, ← heq]
              exact hsub e hemem
            · intro e hemem
              rcases List.mem_append.mp hemem with h | h
              · exact List.mem_cons_of_mem _ (hsub e h)
              · simp only [List.mem_singleton] at h
                rw [h]
                exact List.mem_cons_self _ _

/-- C4 counterexample: app.py dedupe_submissions deduplicates by the exact
email string, not the case-normalized one.  Two submissions whose emails
differ only in case both survive deduplication, so the output has two
entries with the same case-normalized email "a@x.com". -/
theorem dedupe_case_sensitive_counterexample :
    (dedupe_submissions CHECKBOX_PROPERTIES
        [⟨[⟨some "email", some "A@x.com"⟩], some 1, none⟩,
         ⟨[⟨some "email", some "a@x.com"⟩], some 1, none⟩]).map
      (fun s => pyLower
        ((parse_submission CHECKBOX_PROPERTIES s.values).1.getD ""))
      = ["a@x.com", "a@x.com"]
    ∧ ¬ ((dedupe_submissions CHECKBOX_PROPERTIES
        [⟨[⟨some "email", some "A@x.com"⟩], some 1, none⟩,
         ⟨[⟨some "email", some "a@x.com"⟩], some 1, none⟩]).map
      (fun s => pyLower
        ((parse_submission CHECKBOX_PROPERTIES s.values).1.getD ""))).Nodup :=
  ⟨by decide, by decide⟩

/-- C4 (amended): both dedupe implementations keep at most one entry per
email and retain the most recent submission, but with different email
keys: dedupe_submissions_newest_first keys on the lowercased email (first
seen wins over its newest-first input), while app.py dedupe_submissions
keys on the exact email string (larger timestamp wins).  On the spec's
example the entry with t = 2 is retained for "a@x.com" and the single
entry for "b@x.com" survives, in both implementations. -/
theorem dedupe_unique_emails :
    (∀ subs : List SubmissionM,
      ((dedupe_submissions_newest_first subs).map
        (fun e => pyLower e.email)).Nodup)
    ∧ (∀ (cb : List String) (subs : List SubmissionA),
      ((dedupe_submissions cb subs).map
        (fun s => (parse_submission cb s.values).1)).Nodup)
    ∧ dedupe_submissions_newest_first
        [⟨[⟨some "email", some "a@x.com"⟩, ⟨some "t", some "2"⟩]⟩,
         ⟨[⟨some "email", some "a@x.com"⟩, ⟨some "t", some "1"⟩]⟩,
         ⟨[⟨some "email", some "b@x.com"⟩, ⟨some "t", some "1"⟩]⟩]
      = [⟨"a@x.com", [("email", some "a@x.com"), ("t", some "2")]⟩,
         ⟨"b@x.com", [("email", some "b@x.com"), ("t", some "1")]⟩]
    ∧ dedupe_submissions CHECKBOX_PROPERTIES
        [⟨[⟨some "email", some "a@x.com"⟩], some 1, none⟩,
         ⟨[⟨some "email", some "a@x.com"⟩], some 2, none⟩,
         ⟨[⟨some "email", some "b@x.com"⟩], some 1, none⟩]
      = [⟨[⟨some "email", some "a@x.com"⟩], some 2, none⟩,
         ⟨[⟨some "email", some "b@x.com"⟩], some 1, none⟩] := by
  refine ⟨?_, ?_, by decide, by decide⟩
  · intro subs
    exact dedupeNFGo_nodup subs [] [] (by simp) (by simp)
  · intro cb subs
    exact dedupe_submissions_emails_nodup cb subs

/-- C5 counterexample: the kill flag is not polled inside the run loop.
With the flag clear at the endpoint's entry check but set at every moment
thereafter (schedule constantly true), a two-page run still processes both
pages' submissions and reports completion (status "complete"), instead of
stopping within one iteration and reporting a killed/partial result. -/
theorem kill_flag_ignored_counterexample :
    run_all false (fun _ => true) false
        [("f1", [("opt_in", "marketing_opt_in")])] (fun _ => none)
        (fun _ => [⟨[⟨[⟨some "email", some "a@x.com"⟩]⟩], some "tok"⟩,
                   ⟨[⟨[⟨some "email", some "b@x.com"⟩]⟩], none⟩])
        "smoke"
      = RunAllOut.done "smoke"
          [⟨"a@x.com", "contact_not_found", 0, none⟩,
           ⟨"b@x.com", "contact_not_found", 0, none⟩] := by
  decide

/-- C5 (amended): KILLED is consulted exactly once, at the endpoint's
entry: a flag set before the run starts blocks it, while the body of
run_recovery_streaming contains no kill check, so the run's outcome is
identical under any two kill schedules — a flag set during a run has no
effect and the job still reports completion. -/
theorem kill_checked_only_at_entry :
    (∀ (kd : Nat → Bool) (dr : Bool)
        (fpm : List (String × List (String × String)))
        (lookup : String → Option ContactM)
        (pagesFor : String → List PageM) (mode : String),
        run_all true kd dr fpm lookup pagesFor mode = RunAllOut.blocked)
    ∧ (∀ (ke : Bool) (kd kd2 : Nat → Bool) (dr : Bool)
        (fpm : List (String × List (String × String)))
        (lookup : String → Option ContactM)
        (pagesFor : String → List PageM) (mode : String),
        run_all ke kd dr fpm lookup pagesFor mode
          = run_all ke kd2 dr fpm lookup pagesFor mode) := by
  constructor
  · intro kd dr fpm lookup pagesFor mode
    rfl
  · intro ke kd kd2 dr fpm lookup pagesFor mode
    rfl

/-- The outcome safe_request produces for a non-429 response: any status
from 400 up raises, anything below is returned. -/
def nonRetryOut (r : Resp) : SROut :=
  if 400 ≤ r.status then SROut.err r.status else SROut.ok r

theorem goSR_non429 (responses : Nat → Resp) (idx left : Nat)
    (h : (responses idx).status ≠ 429) :
    goSR responses idx left = ⟨nonRetryOut (responses idx), []⟩ := by
  unfold nonRetryOut
  cases left with
  | zero =>
    unfold goSR
    rw [if_neg h]
    by_cases h4 : 400 ≤ (responses idx).status
    · rw [if_pos h4, if_pos h4]
    · rw [if_neg h4, if_neg h4]
  | succ n =>
    unfold goSR
    rw [if_neg h]
    by_cases h4 : 400 ≤ (responses idx).status
    · rw [if_pos h4, if_pos h4]
    · rw [if_neg h4, if_neg h4]

theorem goSR_all429 (responses : Nat → Resp) :
    ∀ (left idx : Nat),
      (∀ i, idx ≤ i → i ≤ idx + left → (responses i).status = 429) →
      goSR responses idx left =
        ⟨SROut.err 429,
          (List.range left).map (fun j => retrySecs (responses (idx + j)))⟩ := by
  intro left
  induction left with
  | zero =>
    intro idx h
    have h0 : (responses idx).status = 429 := h idx le_rfl (by omega)
    unfold goSR
    rw [if_pos h0]
    rfl
  | succ n ih =>
    intro idx h
    have h0 : (responses idx).status = 429 := h idx le_rfl (by omega)
    unfold goSR
    rw [if_pos h0]
    rw [ih (idx + 1) (fun i hi1 hi2 => h i (by omega) (by omega))]
    have hsl : retrySecs (responses idx) ::
        (List.range n).map (fun j => retrySecs (responses (idx + 1 + j))) =
        (List.range (n + 1)).map (fun j => retrySecs (responses (idx + j))) := by
      rw [List.range_succ_eq_map, List.map_cons, List.map_map]
      have : idx + 0 = idx := by omega
      rw [this]
      have hcg : (List.range n).map (fun j => retrySecs (responses (idx + 1 + j)))
          = (List.range n).map
            ((fun j => retrySecs (responses (idx + j))) ∘ Nat.succ) := by
        apply List.map_congr_left
        intro j _
        have : idx + 1 + j = idx + j.succ := by omega
        rw [Function.comp_apply, this]
      rw [hcg]
    rw [← hsl]

theorem goSR_first_non429 (responses : Nat → Resp) :
    ∀ (k left idx : Nat), k ≤ left →
      (∀ i, idx ≤ i → i < idx + k → (responses i).status = 429) →
      (responses (idx + k)).status ≠ 429 →
      goSR responses idx left =
        ⟨nonRetryOut (responses (idx + k)),
          (List.range k).map (fun j => retrySecs (responses (idx + j)))⟩ := by
  intro k
  induction k with
  | zero =>
    intro left idx _ _ hn
    have hidx : idx + 0 = idx := by omega
    rw [hidx] at hn ⊢
    rw [goSR_non429 responses idx left hn]
    rfl
  | succ n ih =>
    intro left idx hk h429 hn
    obtain ⟨left2, rfl⟩ : ∃ m, left = m + 1 := ⟨left - 1, by omega⟩
    have h0 : (responses idx).status = 429 := h429 idx le_rfl (by omega)
    unfold goSR
    rw [if_pos h0]
    have harg : idx + 1 + n = idx + (n + 1) := by omega
    rw [ih left2 (idx + 1) (by omega)
      (fun i hi1 hi2 => h429 i (by omega) (by omega))
      (by rw [harg]; exact hn)]
    have hsl : retrySecs (responses idx) ::
        (List.range n).map (fun j => retrySecs (responses (idx + 1 + j))) =
        (List.range (n + 1)).map (fun j => retrySecs (responses (idx + j))) := by
      rw [List.range_succ_eq_map, List.map_cons, List.map_map]
      have : idx + 0 = idx := by omega
      rw [this]
      have hcg : (List.range n).map (fun j => retrySecs (responses (idx + 1 + j)))
          = (List.range n).map
            ((fun j => retrySecs (responses (idx + j))) ∘ Nat.succ) := by
        apply List.map_congr_left
        intro j _
        have : idx + 1 + j = idx + j.succ := by omega
        rw [Function.comp_apply, this]
      rw [hcg]
    rw [harg, ← hsl]

/-- C7: safe_request retries a 429 response, sleeping the parsed
Retry-After header (defaulting to 3 when the header is absent or
unparsable) before each retry, up to 5 retries; a sixth consecutive 429 is
surfaced as the HTTP error itself, and the first non-429 response ends the
loop immediately (no non-429 response is ever retried), with one recorded
sleep per 429 seen before it. -/
theorem rate_limit_retry_policy :
    (∀ (responses : Nat → Resp),
        (∀ i, i ≤ 5 → (responses i).status = 429) →
        safe_request responses =
          ⟨SROut.err 429,
            (List.range 5).map (fun j => retrySecs (responses j))⟩)
    ∧ (∀ (responses : Nat → Resp) (k : Nat), k ≤ 5 →
        (∀ i, i < k → (responses i).status = 429) →
        (responses k).status ≠ 429 →
        safe_request responses =
          ⟨nonRetryOut (responses k),
            (List.range k).map (fun j => retrySecs (responses j))⟩)
    ∧ retrySecs ⟨429, none, ⟨[], none, NextField.absent⟩⟩ = 3
    ∧ retrySecs ⟨429, some "oops", ⟨[], none, NextField.absent⟩⟩ = 3
    ∧ retrySecs ⟨429, some "7", ⟨[], none, NextField.absent⟩⟩ = 7 := by
  refine ⟨?_, ?_, by decide, by decide, by decide⟩
  · intro responses h
    unfold safe_request
    rw [goSR_all429 responses 5 0 (fun i _ h2 => h i (by omega))]
    have hmap : (List.range 5).map (fun j => retrySecs (responses (0 + j)))
        = (List.range 5).map (fun j => retrySecs (responses j)) :=
      List.map_congr_left (fun j _ => by rw [Nat.zero_add])
    rw [hmap]
  · intro responses k hk h429 hn
    unfold safe_request
    rw [goSR_first_non429 responses k 5 0 hk
      (fun i _ h2 => h429 i (by omega))
      (by rw [Nat.zero_add]; exact hn)]
    rw [Nat.zero_add k]
    have hmap : (List.range k).map (fun j => retrySecs (responses (0 + j)))
        = (List.range k).map (fun j => retrySecs (responses j)) :=
      List.map_congr_left (fun j _ => by rw [Nat.zero_add])
    rw [hmap]

/-- A response sequence with two rate-limit responses followed by a
success, used to witness the retry policy. -/
def respSeqW : Nat → Resp := fun i =>
  if i < 2 then ⟨429, none, ⟨[], none, NextField.absent⟩⟩
  else ⟨200, none, ⟨[], none, NextField.absent⟩⟩

/-- Witness for C7 at a concrete input: two 429 responses are retried with
the default 3-second sleeps and the following 200 ends the loop. -/
theorem rate_limit_retry_policy_witness :
    ((2 : Nat) ≤ 5) ∧ ((respSeqW 2).status ≠ 429)
    ∧ safe_request respSeqW =
        ⟨nonRetryOut (respSeqW 2),
          (List.range 2).map (fun j => retrySecs (respSeqW j))⟩ :=
  ⟨by decide, by decide, rate_limit_retry_policy.2.1 respSeqW 2 (by decide)
    (by intro i hi; interval_cases i <;> rfl) (by decide)⟩

/-- C6 counterexample: a 404 page fetch does not produce an empty page.
fetch_form_submissions surfaces the 404 as an error, which is not the
empty page (no results, no token) the claim promises. -/
theorem fetch_404_error_counterexample :
    fetch_form_submissions (fun _ => ⟨404, none, ⟨[], none, NextField.absent⟩⟩)
      = Except.error 404
    ∧ (Except.error 404 : Except Nat (List SubmissionM × Option String))
        ≠ Except.ok ([], none) :=
  ⟨rfl, fun h => Except.noConfusion h⟩

/-- C6 (amended): every non-2xx status other than 429 — including 400 and
404 — propagates as an error from the page fetch; main.py safe_request
raises for any such status, and app.py fetch_submissions turns a 404 into
its own "Form not found or deleted." error.  No path returns an empty page
for 404 or 400. -/
theorem non2xx_propagates :
    (∀ (responses : Nat → Resp),
        400 ≤ (responses 0).status → (responses 0).status ≠ 429 →
        fetch_form_submissions responses = Except.error (responses 0).status)
    ∧ (∀ r : RespA, r.status = 404 →
        fetch_submissions_step r
          = FetchAOut.httpExc 404 "Form not found or deleted.")
    ∧ (∀ r : RespA, 400 ≤ r.status → r.status ≠ 404 →
        fetch_submissions_step r = FetchAOut.httpErr r.status) := by
  refine ⟨?_, ?_, ?_⟩
  · intro responses h4 hn
    unfold fetch_form_submissions safe_request
    rw [goSR_non429 responses 0 5 hn]
    unfold nonRetryOut
    rw [if_pos h4]
  · intro r h
    unfold fetch_submissions_step
    rw [if_pos h]
  · intro r h4 hn
    unfold fetch_submissions_step
    rw [if_neg hn, if_pos h4]

/-- A constant 500-response sequence used to witness error propagation. -/
def respErrW : Nat → Resp := fun _ => ⟨500, none, ⟨[], none, NextField.absent⟩⟩

/-- Witness for C6's amended theorem: a 500 response propagates as the
error 500. -/
theorem non2xx_propagates_witness :
    (400 ≤ (respErrW 0).status) ∧ ((respErrW 0).status ≠ 429)
    ∧ fetch_form_submissions respErrW = Except.error (respErrW 0).status :=
  ⟨by decide, by decide, non2xx_propagates.1 respErrW (by decide) (by decide)⟩

theorem pyFalsy_some_ne {t : String} (h : t ≠ "") :
    pyFalsy (some t) = false := by
  simp [pyFalsy, h]

/-- C8: fetch_form_submissions normalizes the continuation token, with the
nested paging.next.after shape taking precedence when it carries a
(non-empty) token, then a dict-shaped next.after, then a string-shaped
next; when no shape carries a token the result is none; and every produced
token comes from one of the three shapes. -/
theorem next_after_normalization :
    (∀ (d : SubsResponse) (t : String), t ≠ "" →
        d.paging = some (some t) → normalize_next_after d = some t)
    ∧ (∀ (d : SubsResponse) (t : String),
        (d.paging = none ∨ d.paging = some none ∨ d.paging = some (some "")) →
        d.next = NextField.obj (some t) → t ≠ "" →
        normalize_next_after d = some t)
    ∧ (∀ (d : SubsResponse) (t : String),
        (d.paging = none ∨ d.paging = some none ∨ d.paging = some (some "")) →
        d.next = NextField.str t →
        normalize_next_after d = some t)
    ∧ (∀ d : SubsResponse,
        (d.paging = none ∨ d.paging = some none) →
        (d.next = NextField.absent ∨ d.next = NextField.obj none) →
        normalize_next_after d = none)
    ∧ (∀ (d : SubsResponse) (t : String),
        normalize_next_after d = some t →
        d.paging = some (some t) ∨ d.next = NextField.obj (some t) ∨
          d.next = NextField.str t) := by
  refine ⟨?_, ?_, ?_, ?_, ?_⟩
  · intro d t ht hpag
    simp [normalize_next_after, hpag, pyFalsy_some_ne ht]
  · intro d t hpag hnxt ht
    rcases hpag with hp | hp | hp <;>
      simp [normalize_next_after, hp, hnxt, pyFalsy, pyFalsy_some_ne ht]
  · intro d t hpag hnxt
    rcases hpag with hp | hp | hp <;>
      simp [normalize_next_after, hp, hnxt, pyFalsy]
  · intro d hpag hnxt
    rcases hpag with hp | hp <;> rcases hnxt with hn | hn <;>
      simp [normalize_next_after, hp, hn, pyFalsy]
  · intro d t h
    obtain ⟨res, pag, nxt⟩ := d
    cases pag with
    | none =>
      cases nxt with
      | absent => simp [normalize_next_after, pyFalsy] at h
      | obj a =>
        cases a with
        | none => simp [normalize_next_after, pyFalsy] at h
        | some s =>
          by_cases hs : s = ""
          · subst hs
            simp [normalize_next_after, pyFalsy] at h
            subst h
            exact Or.inr (Or.inl rfl)
          · simp [normalize_next_after, pyFalsy, hs] at h
            subst h
            exact Or.inr (Or.inl rfl)
      | str s =>
        simp [normalize_next_after, pyFalsy] at h
        subst h
        exact Or.inr (Or.inr rfl)
    | some a =>
      cases a with
      | none =>
        cases nxt with
        | absent => simp [normalize_next_after, pyFalsy] at h
        | obj b =>
          cases b with
          | none => simp [normalize_next_after, pyFalsy] at h
          | some s =>
            by_cases hs : s = ""
            · subst hs
              simp [normalize_next_after, pyFalsy] at h
              subst h
              exact Or.inr (Or.inl rfl)
            · simp [normalize_next_after, pyFalsy, hs] at h
              subst h
              exact Or.inr (Or.inl rfl)
        | str s =>
          simp [normalize_next_after, pyFalsy] at h
          subst h
          exact Or.inr (Or.inr rfl)
      | some s =>
        by_cases hs : s = ""
        · subst hs
          cases nxt with
          | absent =>
            simp [normalize_next_after, pyFalsy] at h
            subst h
            exact Or.inl rfl
          | obj b =>
            cases b with
            | none => simp [normalize_next_after, pyFalsy] at h
            | some u =>
              by_cases hu : u = ""
              · subst hu
                simp [normalize_next_after, pyFalsy] at h
                subst h
                exact Or.inr (Or.inl rfl)
              · simp [normalize_next_after, pyFalsy, hu] at h
                subst h
                exact Or.inr (Or.inl rfl)
          | str u =>
            simp [normalize_next_after, pyFalsy] at h
            subst h
            exact Or.inr (Or.inr rfl)
        · simp [normalize_next_after, pyFalsy, hs] at h
          subst h
          exact Or.inl rfl

/-- Witness for C8 at concrete inputs: a nested token wins over a
string-shaped next, and a dict-shaped next.after is used when the nested
chain is absent. -/
theorem next_after_normalization_witness :
    (("tok" : String) ≠ "")
    ∧ normalize_next_after ⟨[], some (some "tok"), NextField.str "other"⟩
        = some "tok"
    ∧ normalize_next_after ⟨[], none, NextField.obj (some "t2")⟩ = some "t2" :=
  ⟨by decide,
    next_after_normalization.1 ⟨[], some (some "tok"), NextField.str "other"⟩
      "tok" (by decide) rfl,
    next_after_normalization.2.1 ⟨[], none, NextField.obj (some "t2")⟩ "t2"
      (Or.inl rfl) rfl (by decide)⟩

/-- C9 counterexample: main.py extract_submission_email_and_fields returns
the email value verbatim: for an entry value " jane@x.com " it returns the
untrimmed string, which differs from the trimmed "jane@x.com" the claim
promises. -/
theorem extract_email_untrimmed_counterexample :
    (extract_submission_email_and_fields
        [⟨some "email", some " jane@x.com "⟩]).1 = some " jane@x.com "
    ∧ (some " jane@x.com " : Option String) ≠ some "jane@x.com" :=
  ⟨by decide, by decide⟩

/-- C9 (amended): app.py parse_submission returns the email trimmed of
surrounding whitespace, but main.py extract_submission_email_and_fields
returns the raw value untrimmed; on " jane@x.com " parse_submission yields
"jane@x.com". -/
theorem email_trim_behavior :
    (∀ (cb : List String) (v : String),
        (parse_submission cb [⟨some "email", some v⟩]).1 = some (pyStrip v))
    ∧ (∀ v : String,
        (extract_submission_email_and_fields
          [⟨some "email", some v⟩]).1 = some v)
    ∧ (parse_submission CHECKBOX_PROPERTIES
        [⟨some "email", some " jane@x.com "⟩]).1 = some "jane@x.com" := by
  refine ⟨?_, ?_, by decide⟩
  · intro cb v
    simp [parse_submission, parseStep]
  · intro v
    simp [extract_submission_email_and_fields, extractStep]

/-- C10: run_batch_for_form clamps a negative offset to 0 and a
non-positive limit to 100; a (clamped) offset at or past the total returns
status "complete" with processed count 0, no next offset and remaining 0,
processing nothing; otherwise it processes exactly the rows at indices
[offset, min(offset+limit, total)), reports next_offset = that end when it
is below the total (none otherwise) and remaining = total − end. -/
theorem batch_offset_limit_slicing :
    (∀ (dr : Bool) (fpm : List (String × List (String × String)))
        (lookup : String → Option ContactM) (fid mode : String)
        (offset limit : Int) (items : List BatchRow),
        offset < 0 →
        run_batch_for_form dr fpm lookup fid mode offset limit items
          = run_batch_for_form dr fpm lookup fid mode 0 limit items)
    ∧ (∀ (dr : Bool) (fpm : List (String × List (String × String)))
        (lookup : String → Option ContactM) (fid mode : String)
        (offset limit : Int) (items : List BatchRow),
        limit ≤ 0 →
        run_batch_for_form dr fpm lookup fid mode offset limit items
          = run_batch_for_form dr fpm lookup fid mode offset 100 items)
    ∧ (∀ (dr : Bool) (fpm : List (String × List (String × String)))
        (lookup : String → Option ContactM) (fid mode : String)
        (offset limit : Int) (items : List BatchRow),
        0 ≤ offset → items.length ≤ offset.toNat →
        run_batch_for_form dr fpm lookup fid mode offset limit items
          = ⟨"complete", if dr then "smoke" else mode, 0, 0, 0, offset.toNat,
              none, 0, items.length, []⟩)
    ∧ (∀ (dr : Bool) (fpm : List (String × List (String × String)))
        (lookup : String → Option ContactM) (fid mode : String)
        (offset limit : Int) (items : List BatchRow),
        0 ≤ offset → 0 < limit → offset.toNat < items.length →
        (run_batch_for_form dr fpm lookup fid mode offset limit
            items).processedCount
          = min (offset.toNat + limit.toNat) items.length - offset.toNat
        ∧ (∀ j : Nat,
            (run_batch_for_form dr fpm lookup fid mode offset limit
              items).batch[j]?
            = if j < min (offset.toNat + limit.toNat) items.length
                  - offset.toNat
              then items[offset.toNat + j]? else none)
        ∧ (run_batch_for_form dr fpm lookup fid mode offset limit
            items).nextOffset
          = (if offset.toNat + limit.toNat < items.length
             then some (min (offset.toNat + limit.toNat) items.length)
             else none)
        ∧ (run_batch_for_form dr fpm lookup fid mode offset limit
            items).remaining
          = items.length - min (offset.toNat + limit.toNat) items.length
        ∧ (run_batch_for_form dr fpm lookup fid mode offset limit
            items).status = "complete") := by
  refine ⟨?_, ?_, ?_, ?_⟩
  · intro dr fpm lookup fid mode offset limit items h
    unfold run_batch_for_form
    rw [if_pos h, if_neg (by omega : ¬((0 : Int) < 0))]
  · intro dr fpm lookup fid mode offset limit items h
    unfold run_batch_for_form
    rw [if_pos h, if_neg (by omega : ¬((100 : Int) ≤ 0))]
  · intro dr fpm lookup fid mode offset limit items h0 hlen
    unfold run_batch_for_form
    rw [if_neg (by omega : ¬(offset < 0))]
    rw [if_pos hlen]
  · intro dr fpm lookup fid mode offset limit items h0 hl hlt
    unfold run_batch_for_form
    rw [if_neg (by omega : ¬(offset < 0)), if_neg (by omega : ¬(limit ≤ 0))]
    rw [if_neg (by omega : ¬(items.length ≤ offset.toNat))]
    refine ⟨?_, ?_, ?_, ?_, ?_⟩
    · show ((items.drop offset.toNat).take
          (min (offset.toNat + limit.toNat) items.length - offset.toNat)).length
        = min (offset.toNat + limit.toNat) items.length - offset.toNat
      rw [List.length_take, List.length_drop]
      omega
    · intro j
      show ((items.drop offset.toNat).take
          (min (offset.toNat + limit.toNat) items.length - offset.toNat))[j]?
        = _
      rw [List.getElem?_take, List.getElem?_drop]
    · show (if min (offset.toNat + limit.toNat) items.length < items.length
          then some (min (offset.toNat + limit.toNat) items.length)
          else none) = _
      by_cases hc : offset.toNat + limit.toNat < items.length
      · rw [if_pos hc, if_pos (by omega :
          min (offset.toNat + limit.toNat) items.length < items.length)]
      · rw [if_neg hc, if_neg (by omega :
          ¬(min (offset.toNat + limit.toNat) items.length < items.length))]
    · rfl
    · rfl

/-- Witness for C10 at a concrete input: an offset past the end of a
one-row snapshot returns the empty "complete" summary. -/
theorem batch_offset_limit_slicing_witness :
    ((0 : Int) ≤ 5)
    ∧ (([⟨"a", []⟩] : List BatchRow).length ≤ (5 : Int).toNat)
    ∧ run_batch_for_form false [] (fun _ => none) "f" "smoke" 5 10 [⟨"a", []⟩]
        = ⟨"complete", "smoke", 0, 0, 0, (5 : Int).toNat, none, 0,
            ([⟨"a", []⟩] : List BatchRow).length, []⟩ :=
  ⟨by decide, by decide,
    batch_offset_limit_slicing.2.2.1 false [] (fun _ => none) "f" "smoke" 5 10
      [⟨"a", []⟩] (by decide) (by decide)⟩
